import Mathlib

/-!
Verification of the BaconTileSetter autotile generation core
(`src/js/main.js`): bitmask normalization (`normalize47`), the canonical
47-value table (`build47Index` / `NORMALIZED_47`), the quadrant compositor
(`composeQuadrants` / `drawQuadrant` / `blitQuadrant` / `blendQuadrantEdges`),
the two atlas builders (`generate16`, `generate47`) and the scheme
dispatcher (`generate`).

Rasters are modelled at the pixel level.  A pixel is a non-premultiplied
RGBA quadruple of naturals in 0..255, as exposed by `getImageData`.  A
`Raster` is a pixel function; the embedding models the pixel-exact 1:1 case
where every source raster has the same size as the generated tile (the
common case: `blitQuadrant` then copies source quadrant `(qcol,qrow)` to
the same destination quadrant without scaling).  A canvas is a pixel
function together with its width and height; `createCanvas` yields a fully
transparent canvas, and `ctx.drawImage` is modelled by `drawRegion`, which
source-over-composites a layer onto a rectangular region.
-/

/-- One RGBA pixel, non-premultiplied, each channel in 0..255. -/
structure Pixel where
  r : Nat
  g : Nat
  b : Nat
  a : Nat
deriving DecidableEq, Repr

/-- The fully transparent pixel (what `createImageData` initializes). -/
def Pixel.clear : Pixel := ⟨0, 0, 0, 0⟩

/-- Source-over alpha compositing of source pixel `s` onto destination `d`,
computed exactly over a common denominator `s.a·255 + d.a·(255−s.a)`
(which equals `a_out·255`).  This models the canvas `source-over`
operation; it is exact in the fully-opaque and fully-transparent cases
exercised by the generator. -/
def Pixel.srcOver (s d : Pixel) : Pixel :=
  let denom := s.a * 255 + d.a * (255 - s.a)
  if denom = 0 then Pixel.clear
  else
    { r := (s.r * s.a * 255 + d.r * d.a * (255 - s.a)) / denom
      g := (s.g * s.a * 255 + d.g * d.a * (255 - s.a)) / denom
      b := (s.b * s.a * 255 + d.b * d.a * (255 - s.a)) / denom
      a := denom / 255 }

/-- `Math.round (num / den)` for non-negative `num` and positive `den`:
round half up, i.e. `⌊num/den + 1/2⌋`. -/
def jsRound (num den : Nat) : Nat := (2 * num + den) / (2 * den)

/-- An in-memory raster: pixel access by (x, y).  Modelled at the size of
the generated tile (the 1:1 no-scaling case of `blitQuadrant`). -/
def Raster := Nat → Nat → Pixel

/-- A canvas: size plus current pixel contents. -/
structure Canvas where
  width : Nat
  height : Nat
  pix : Nat → Nat → Pixel

/-- `createCanvas(w, h)`: a fresh, fully transparent canvas. -/
def createCanvas (w h : Nat) : Canvas :=
  ⟨w, h, fun _ _ => Pixel.clear⟩

/-- `ctx.drawImage` of a layer `f` (given in layer-local coordinates) onto
the rectangle with top-left `(dx, dy)` and size `w × h`, using source-over
compositing.  Pixels outside the rectangle are untouched. -/
def drawRegion (c : Canvas) (dx dy w h : Nat) (f : Nat → Nat → Pixel) : Canvas :=
  { c with
    pix := fun x y =>
      if dx ≤ x ∧ x < dx + w ∧ dy ≤ y ∧ y < dy + h then
        Pixel.srcOver (f (x - dx) (y - dy)) (c.pix x y)
      else c.pix x y }

/-- The five optional source rasters `{ main, top, bottom, left, right }`. -/
structure Imgs where
  main : Option Raster
  top : Option Raster
  bottom : Option Raster
  left : Option Raster
  right : Option Raster

/-- The entirely empty source raster set. -/
def emptyImgs : Imgs := ⟨none, none, none, none, none⟩

/-- `blitQuadrant(ctx, qx, qy, qs, qcol, qrow, src)`: copy quadrant
`(qcol, qrow)` of `src` onto the canvas at `(qx, qy)` with size `qs × qs`
(1:1 case: the source quadrant also has size `qs × qs`).  A `null` source
draws nothing. -/
def blitQuadrant (ctx : Canvas) (qx qy qs qcol qrow : Nat) (src : Option Raster) : Canvas :=
  match src with
  | none => ctx
  | some s =>
      drawRegion ctx qx qy qs qs (fun x y => s (qcol * qs + x) (qrow * qs + y))

/-- The intersection-only blend layer built by `blendQuadrantEdges`: where
both edge quadrants have non-zero alpha, the alpha-weighted rounded average
of the colors with the maximum alpha; elsewhere fully transparent
(those pixels are not drawn). -/
def blendLayer (imgVert imgHoriz : Raster) (qcol qrow qs : Nat) (x y : Nat) : Pixel :=
  let pV := imgVert (qcol * qs + x) (qrow * qs + y)
  let pH := imgHoriz (qcol * qs + x) (qrow * qs + y)
  if 0 < pV.a ∧ 0 < pH.a then
    { r := jsRound (pV.r * pV.a + pH.r * pH.a) (pV.a + pH.a)
      g := jsRound (pV.g * pV.a + pH.g * pH.a) (pV.a + pH.a)
      b := jsRound (pV.b * pV.a + pH.b * pH.a) (pV.a + pH.a)
      a := max pV.a pH.a }
  else Pixel.clear

/-- `blendQuadrantEdges`: composite the intersection-only blend of the two
edge quadrants onto the canvas at `(qx, qy)` via source-over. -/
def blendQuadrantEdges (ctx : Canvas) (qx qy qs qcol qrow : Nat)
    (imgVert imgHoriz : Raster) : Canvas :=
  drawRegion ctx qx qy qs qs (blendLayer imgVert imgHoriz qcol qrow qs)

/-- `drawQuadrant`: draw a single quadrant of a tile.
* no source available at all: leave the quadrant transparent;
* both cardinals present (interior): `main` (or the first available edge
  raster) as base, plus the inner-corner blend when `innerCorner`;
* otherwise (edge / outer corner): `main` as base if present, then the
  vertical edge raster when the vertical cardinal is absent, then the
  horizontal edge raster when the horizontal cardinal is absent. -/
def drawQuadrant (ctx : Canvas) (qx qy qs qcol qrow : Nat)
    (hasVert hasHoriz : Bool) (imgMain imgVert imgHoriz : Option Raster)
    (innerCorner : Bool) : Canvas :=
  if imgMain.isNone && imgVert.isNone && imgHoriz.isNone then ctx
  else if hasVert && hasHoriz then
    let base := blitQuadrant ctx qx qy qs qcol qrow ((imgMain.orElse fun _ => imgVert).orElse fun _ => imgHoriz)
    if innerCorner then
      match imgVert, imgHoriz with
      | some v, some h => blendQuadrantEdges base qx qy qs qcol qrow v h
      | some v, none => blitQuadrant base qx qy qs qcol qrow (some v)
      | none, some h => blitQuadrant base qx qy qs qcol qrow (some h)
      | none, none => base
    else base
  else
    let c1 := if imgMain.isSome then blitQuadrant ctx qx qy qs qcol qrow imgMain else ctx
    let c2 := if !hasVert && imgVert.isSome then blitQuadrant c1 qx qy qs qcol qrow imgVert else c1
    if !hasHoriz && imgHoriz.isSome then blitQuadrant c2 qx qy qs qcol qrow imgHoriz else c2

/-- `composeQuadrants(ctx, tx, ty, ts, bm4, imgs, bm8)`: draw one tile by
compositing its four quadrants.  `bm4` bits: bit0=N, bit1=E, bit2=S,
bit3=W.  `bm8` bits: 0x02=NE, 0x08=SE, 0x20=SW, 0x80=NW; `bm8 = 0`
disables inner-corner rendering (the 16-tile path). -/
def composeQuadrants (ctx : Canvas) (tx ty ts : Nat) (bm4 : Nat) (imgs : Imgs)
    (bm8 : Nat) : Canvas :=
  let qs := ts / 2
  let hasN := bm4 &&& 0x1 != 0
  let hasE := bm4 &&& 0x2 != 0
  let hasS := bm4 &&& 0x4 != 0
  let hasW := bm4 &&& 0x8 != 0
  let hasNW := bm8 &&& 0x80 != 0
  let hasNE := bm8 &&& 0x02 != 0
  let hasSE := bm8 &&& 0x08 != 0
  let hasSW := bm8 &&& 0x20 != 0
  let c1 := drawQuadrant ctx tx ty qs 0 0 hasN hasW imgs.main imgs.top imgs.left
    ((bm8 != 0) && hasN && hasW && !hasNW)
  let c2 := drawQuadrant c1 (tx + qs) ty qs 1 0 hasN hasE imgs.main imgs.top imgs.right
    ((bm8 != 0) && hasN && hasE && !hasNE)
  let c3 := drawQuadrant c2 tx (ty + qs) qs 0 1 hasS hasW imgs.main imgs.bottom imgs.left
    ((bm8 != 0) && hasS && hasW && !hasSW)
  drawQuadrant c3 (tx + qs) (ty + qs) qs 1 1 hasS hasE imgs.main imgs.bottom imgs.right
    ((bm8 != 0) && hasS && hasE && !hasSE)

/-- Clear from `b` the bits of the single-bit mask `m` (JS `b &= ~m`). -/
def clearBit (b m : Nat) : Nat := b - (b &&& m)

/-- `normalize47(b)`: clear each diagonal bit whose two adjacent cardinal
bits are not both set.  8-bit layout: 0x01=N, 0x02=NE, 0x04=E, 0x08=SE,
0x10=S, 0x20=SW, 0x40=W, 0x80=NW. -/
def normalize47 (b : Nat) : Nat :=
  let b1 := if b &&& 0x01 == 0 || b &&& 0x04 == 0 then clearBit b 0x02 else b
  let b2 := if b1 &&& 0x04 == 0 || b1 &&& 0x10 == 0 then clearBit b1 0x08 else b1
  let b3 := if b2 &&& 0x10 == 0 || b2 &&& 0x40 == 0 then clearBit b2 0x20 else b2
  if b3 &&& 0x40 == 0 || b3 &&& 0x01 == 0 then clearBit b3 0x80 else b3

/-- `build47Index()`: the ascending list of the distinct values of
`normalize47` over 0..255 (JS: collect into a `Set`, sort ascending). -/
def build47Index : List Nat :=
  (((List.range 256).map normalize47).dedup).insertionSort (· ≤ ·)

/-- The once-computed canonical table `NORMALIZED_47`. -/
def NORMALIZED_47 : List Nat := build47Index

/-- `cardinals8to4(b8)`: extract the cardinal bits N=0x01, E=0x04, S=0x10,
W=0x40 of an 8-bit code and pack them as bit0=N, bit1=E, bit2=S, bit3=W. -/
def cardinals8to4 (b8 : Nat) : Nat :=
  (if b8 &&& 0x01 != 0 then 0x1 else 0) |||
  (if b8 &&& 0x04 != 0 then 0x2 else 0) |||
  (if b8 &&& 0x10 != 0 then 0x4 else 0) |||
  (if b8 &&& 0x40 != 0 then 0x8 else 0)

/-- Tile descriptor produced by `generate16`. -/
structure Tile16 where
  id : Nat
  bitmask : Nat
  x : Nat
  y : Nat
  width : Nat
  height : Nat
  label : String
deriving DecidableEq, Repr

/-- Tile descriptor produced by `generate47`. -/
structure Tile47 where
  id : Nat
  bitmask8 : Nat
  bitmask4 : Nat
  x : Nat
  y : Nat
  width : Nat
  height : Nat
  label : String
deriving DecidableEq, Repr

/-- The fixed 16-entry label table of `generate16`. -/
def LABELS16 : List String :=
  ["isolated", "cap-N", "cap-E", "corner-NE",
   "cap-S", "strip-V", "corner-SE", "T-E",
   "cap-W", "corner-NW", "strip-H", "T-N",
   "corner-SW", "T-W", "T-S", "cross"]

/-- Result of `generate16` / `generate47`: the atlas canvas plus the
ordered tile descriptor list. -/
structure Result16 where
  canvas : Canvas
  tiles : List Tile16

structure Result47 where
  canvas : Canvas
  tiles : List Tile47

/-- One iteration of the `generate16` loop: composite the tile of a
given bitmask at cell `(bitmask mod 4, bitmask div 4)`. -/
def drawTile16 (images : Imgs) (tileSize : Nat) (c : Canvas) (bitmask : Nat) : Canvas :=
  composeQuadrants c (bitmask % 4 * tileSize) (bitmask / 4 * tileSize)
    tileSize bitmask images 0

/-- `generate16(images, tileSize)`: a 4×4 atlas of the 16 cardinal
bitmasks 0..15, tile `i` at cell `(i mod 4, i div 4)`, composited with no
inner-corner data (`bm8 = 0`). -/
def generate16 (images : Imgs) (tileSize : Nat) : Result16 :=
  let cols := 4
  let rows := 4
  let canvas0 := createCanvas (cols * tileSize) (rows * tileSize)
  let canvas := (List.range 16).foldl (drawTile16 images tileSize) canvas0
  let tiles := (List.range 16).map fun bitmask =>
    { id := bitmask
      bitmask := bitmask
      x := bitmask % cols * tileSize
      y := bitmask / cols * tileSize
      width := tileSize
      height := tileSize
      label := LABELS16.getD bitmask ("tile-" ++ toString bitmask) : Tile16 }
  ⟨canvas, tiles⟩

/-- `generate47(images, tileSize)`: an 8×`ceil(47/8)` atlas enumerating the
canonical table in ascending order, tile `idx` at cell
`(idx mod 8, idx div 8)`, composited with the full canonical 8-bit value
for inner-corner rendering.  `drawTile47` is one iteration of its
`forEach` loop over the enumerated canonical table. -/
def drawTile47 (images : Imgs) (tileSize : Nat) (c : Canvas) (p : Nat × Nat) : Canvas :=
  composeQuadrants c (p.1 % 8 * tileSize) (p.1 / 8 * tileSize)
    tileSize (cardinals8to4 p.2) images p.2

def generate47 (images : Imgs) (tileSize : Nat) : Result47 :=
  let cols := 8
  let rows := (NORMALIZED_47.length + cols - 1) / cols
  let canvas0 := createCanvas (cols * tileSize) (rows * tileSize)
  let canvas := NORMALIZED_47.enum.foldl (drawTile47 images tileSize) canvas0
  let tiles := NORMALIZED_47.enum.map fun p =>
    { id := p.1
      bitmask8 := p.2
      bitmask4 := cardinals8to4 p.2
      x := p.1 % cols * tileSize
      y := p.1 / cols * tileSize
      width := tileSize
      height := tileSize
      label := "tile-47-" ++ toString p.1 : Tile47 }
  ⟨canvas, tiles⟩

/-- The result of either builder, tagged by which builder ran. -/
inductive SchemeResult where
  | r16 (canvas : Canvas) (tiles : List Tile16)
  | r47 (canvas : Canvas) (tiles : List Tile47)

/-- Returns true exactly when the result came from the 47-tile builder. -/
def SchemeResult.is47 : SchemeResult → Bool
  | .r16 _ _ => false
  | .r47 _ _ => true

/-- The app state consumed by `generate`. -/
structure GenState where
  images : Imgs
  tileSize : Nat
  algorithm : String

/-- What `generate` returns: the builder output plus the `algorithm`
field spread into the result. -/
structure GenResult where
  res : SchemeResult
  algorithm : String

/-- `generate(state)`: clamp the tile size to at least 8, dispatch on the
`algorithm` string ("47" → 47-builder; "16" and every other value →
16-builder), and return the result together with the state's `algorithm`
string. -/
def generate (state : GenState) : GenResult :=
  let ts := max 8 state.tileSize
  match state.algorithm with
  | "47" =>
      let r := generate47 state.images ts
      ⟨.r47 r.canvas r.tiles, state.algorithm⟩
  | _ =>
      let r := generate16 state.images ts
      ⟨.r16 r.canvas r.tiles, state.algorithm⟩

/-- Spec-side description of the edge/outer-corner draw order: `main`'s
quadrant first as the base when present, then the vertical edge raster's
quadrant on top when the vertical flag is false, then the horizontal edge
raster's quadrant on top when the horizontal flag is false. -/
def edgeLayering (ctx : Canvas) (qx qy qs qcol qrow : Nat) (hasVert hasHoriz : Bool)
    (imgMain imgVert imgHoriz : Option Raster) : Canvas :=
  let c1 := blitQuadrant ctx qx qy qs qcol qrow imgMain
  let c2 := if !hasVert then blitQuadrant c1 qx qy qs qcol qrow imgVert else c1
  if !hasHoriz then blitQuadrant c2 qx qy qs qcol qrow imgHoriz else c2

/-- A solid raster of one constant pixel. -/
def solid (p : Pixel) : Raster := fun _ _ => p

set_option maxRecDepth 8000

/-- `(x, y)` lies outside the `qs × qs` square whose top-left is `(qx, qy)`. -/
def outsideSq (qx qy qs x y : Nat) : Prop :=
  x < qx ∨ qx + qs ≤ x ∨ y < qy ∨ qy + qs ≤ y

/-- `(x, y)` lies outside the `ts × ts` tile whose top-left is `(tx, ty)`. -/
def outsideTile (tx ty ts x y : Nat) : Prop :=
  x < tx ∨ tx + ts ≤ x ∨ y < ty ∨ ty + ts ≤ y

theorem drawRegion_pix_outside {c : Canvas} {dx dy w h : Nat} {f : Nat → Nat → Pixel}
    {x y : Nat} (hout : outsideSq dx dy w x y) (hwh : h = w) :
    (drawRegion c dx dy w h f).pix x y = c.pix x y := by
  have : ¬ (dx ≤ x ∧ x < dx + w ∧ dy ≤ y ∧ y < dy + h) := by
    rcases hout with h1 | h1 | h1 | h1 <;> omega
  simp [drawRegion, this]

theorem blitQuadrant_pix_outside {ctx : Canvas} {qx qy qs qcol qrow : Nat}
    {src : Option Raster} {x y : Nat} (hout : outsideSq qx qy qs x y) :
    (blitQuadrant ctx qx qy qs qcol qrow src).pix x y = ctx.pix x y := by
  cases src with
  | none => rfl
  | some s =>
      unfold blitQuadrant
      exact drawRegion_pix_outside hout rfl

theorem blendQuadrantEdges_pix_outside {ctx : Canvas} {qx qy qs qcol qrow : Nat}
    {imgVert imgHoriz : Raster} {x y : Nat} (hout : outsideSq qx qy qs x y) :
    (blendQuadrantEdges ctx qx qy qs qcol qrow imgVert imgHoriz).pix x y = ctx.pix x y := by
  unfold blendQuadrantEdges
  exact drawRegion_pix_outside hout rfl

theorem drawQuadrant_pix_outside {ctx : Canvas} {qx qy qs qcol qrow : Nat}
    {hv hh : Bool} {m v hz : Option Raster} {ic : Bool} {x y : Nat}
    (hout : outsideSq qx qy qs x y) :
    (drawQuadrant ctx qx qy qs qcol qrow hv hh m v hz ic).pix x y = ctx.pix x y := by
  unfold drawQuadrant
  split
  · rfl
  · split
    · split
      · split <;>
          simp only [blendQuadrantEdges_pix_outside hout, blitQuadrant_pix_outside hout]
      · exact blitQuadrant_pix_outside hout
    · split <;> split <;> split <;>
        simp only [blitQuadrant_pix_outside hout]

theorem composeQuadrants_pix_outside {ctx : Canvas} {tx ty ts bm4 : Nat} {imgs : Imgs}
    {bm8 : Nat} {x y : Nat} (hout : outsideTile tx ty ts x y) :
    (composeQuadrants ctx tx ty ts bm4 imgs bm8).pix x y = ctx.pix x y := by
  have hq : ts / 2 + ts / 2 ≤ ts := by omega
  have h1 : outsideSq tx ty (ts / 2) x y := by
    rcases hout with h | h | h | h
    · exact Or.inl h
    · exact Or.inr (Or.inl (by omega))
    · exact Or.inr (Or.inr (Or.inl h))
    · exact Or.inr (Or.inr (Or.inr (by omega)))
  have h2 : outsideSq (tx + ts / 2) ty (ts / 2) x y := by
    rcases hout with h | h | h | h
    · exact Or.inl (by omega)
    · exact Or.inr (Or.inl (by omega))
    · exact Or.inr (Or.inr (Or.inl h))
    · exact Or.inr (Or.inr (Or.inr (by omega)))
  have h3 : outsideSq tx (ty + ts / 2) (ts / 2) x y := by
    rcases hout with h | h | h | h
    · exact Or.inl h
    · exact Or.inr (Or.inl (by omega))
    · exact Or.inr (Or.inr (Or.inl (by omega)))
    · exact Or.inr (Or.inr (Or.inr (by omega)))
  have h4 : outsideSq (tx + ts / 2) (ty + ts / 2) (ts / 2) x y := by
    rcases hout with h | h | h | h
    · exact Or.inl (by omega)
    · exact Or.inr (Or.inl (by omega))
    · exact Or.inr (Or.inr (Or.inl (by omega)))
    · exact Or.inr (Or.inr (Or.inr (by omega)))
  unfold composeQuadrants
  simp only [drawQuadrant_pix_outside h1, drawQuadrant_pix_outside h2,
    drawQuadrant_pix_outside h3, drawQuadrant_pix_outside h4]

/-- C1: applying `normalize47` to every integer 0..255 and collecting the
distinct results sorted ascending yields the table `NORMALIZED_47` of
exactly 47 strictly increasing (hence distinct) elements, and every 8-bit
input normalizes to a member of that table. -/
theorem c1_canonical_table_has_47_values :
    NORMALIZED_47.length = 47 ∧ NORMALIZED_47.Pairwise (· < ·) ∧
      ∀ b : Fin 256, normalize47 b.val ∈ NORMALIZED_47 := by
  refine ⟨by decide, by decide, by decide⟩

/-- C3: `normalize47` is idempotent on every 8-bit input. -/
theorem c3_normalize47_idempotent :
    ∀ b : Fin 256, normalize47 (normalize47 b.val) = normalize47 b.val := by decide

/-- C4: `normalize47` preserves the four cardinal bits (N=0x01, E=0x04,
S=0x10, W=0x40) of every 8-bit input, and in its output each diagonal bit
(NE=bit 1, SE=bit 3, SW=bit 5, NW=bit 7) is set only when both adjacent
cardinal bits are set in that same value (stated as boolean equations:
a diagonal bit equals its conjunction with both adjacent cardinal bits). -/
theorem c4_normalize47_cardinals_kept_diagonals_supported :
    ∀ b : Fin 256,
      ((normalize47 b.val).testBit 0 = b.val.testBit 0) ∧
      ((normalize47 b.val).testBit 2 = b.val.testBit 2) ∧
      ((normalize47 b.val).testBit 4 = b.val.testBit 4) ∧
      ((normalize47 b.val).testBit 6 = b.val.testBit 6) ∧
      ((normalize47 b.val).testBit 1 =
        ((normalize47 b.val).testBit 1 && (normalize47 b.val).testBit 0
          && (normalize47 b.val).testBit 2)) ∧
      ((normalize47 b.val).testBit 3 =
        ((normalize47 b.val).testBit 3 && (normalize47 b.val).testBit 2
          && (normalize47 b.val).testBit 4)) ∧
      ((normalize47 b.val).testBit 5 =
        ((normalize47 b.val).testBit 5 && (normalize47 b.val).testBit 4
          && (normalize47 b.val).testBit 6)) ∧
      ((normalize47 b.val).testBit 7 =
        ((normalize47 b.val).testBit 7 && (normalize47 b.val).testBit 6
          && (normalize47 b.val).testBit 0)) := by decide

/-- C10: compositing any tile from the entirely empty source raster set
draws nothing: the canvas is returned unchanged for every adjacency code,
and on a fresh canvas every pixel keeps alpha 0. -/
theorem c10_empty_sources_draw_nothing (ctx : Canvas) (tx ty ts bm4 bm8 w h x y : Nat) :
    composeQuadrants ctx tx ty ts bm4 emptyImgs bm8 = ctx ∧
      ((composeQuadrants (createCanvas w h) tx ty ts bm4 emptyImgs bm8).pix x y).a = 0 :=
  ⟨rfl, rfl⟩


theorem blitQuadrant_width {ctx : Canvas} {qx qy qs qcol qrow : Nat} {src : Option Raster} :
    (blitQuadrant ctx qx qy qs qcol qrow src).width = ctx.width := by
  cases src <;> rfl

theorem blitQuadrant_height {ctx : Canvas} {qx qy qs qcol qrow : Nat} {src : Option Raster} :
    (blitQuadrant ctx qx qy qs qcol qrow src).height = ctx.height := by
  cases src <;> rfl

theorem drawQuadrant_width {ctx : Canvas} {qx qy qs qcol qrow : Nat} {hv hh : Bool}
    {m v hz : Option Raster} {ic : Bool} :
    (drawQuadrant ctx qx qy qs qcol qrow hv hh m v hz ic).width = ctx.width := by
  cases m <;> cases v <;> cases hz <;>
    simp [drawQuadrant, apply_ite Canvas.width, blitQuadrant, blendQuadrantEdges, drawRegion]

theorem drawQuadrant_height {ctx : Canvas} {qx qy qs qcol qrow : Nat} {hv hh : Bool}
    {m v hz : Option Raster} {ic : Bool} :
    (drawQuadrant ctx qx qy qs qcol qrow hv hh m v hz ic).height = ctx.height := by
  cases m <;> cases v <;> cases hz <;>
    simp [drawQuadrant, apply_ite Canvas.height, blitQuadrant, blendQuadrantEdges, drawRegion]

theorem composeQuadrants_width {ctx : Canvas} {tx ty ts bm4 : Nat} {imgs : Imgs} {bm8 : Nat} :
    (composeQuadrants ctx tx ty ts bm4 imgs bm8).width = ctx.width := by
  simp [composeQuadrants, drawQuadrant_width]

theorem composeQuadrants_height {ctx : Canvas} {tx ty ts bm4 : Nat} {imgs : Imgs} {bm8 : Nat} :
    (composeQuadrants ctx tx ty ts bm4 imgs bm8).height = ctx.height := by
  simp [composeQuadrants, drawQuadrant_height]

theorem foldl_drawTile16_width (images : Imgs) (ts : Nat) (l : List Nat) (c : Canvas) :
    (l.foldl (drawTile16 images ts) c).width = c.width := by
  induction l generalizing c with
  | nil => rfl
  | cons a l ih => simp [List.foldl_cons, ih, drawTile16, composeQuadrants_width]

theorem foldl_drawTile16_height (images : Imgs) (ts : Nat) (l : List Nat) (c : Canvas) :
    (l.foldl (drawTile16 images ts) c).height = c.height := by
  induction l generalizing c with
  | nil => rfl
  | cons a l ih => simp [List.foldl_cons, ih, drawTile16, composeQuadrants_height]

theorem foldl_drawTile47_width (images : Imgs) (ts : Nat) (l : List (Nat × Nat)) (c : Canvas) :
    (l.foldl (drawTile47 images ts) c).width = c.width := by
  induction l generalizing c with
  | nil => rfl
  | cons a l ih => simp [List.foldl_cons, ih, drawTile47, composeQuadrants_width]

theorem foldl_drawTile47_height (images : Imgs) (ts : Nat) (l : List (Nat × Nat)) (c : Canvas) :
    (l.foldl (drawTile47 images ts) c).height = c.height := by
  induction l generalizing c with
  | nil => rfl
  | cons a l ih => simp [List.foldl_cons, ih, drawTile47, composeQuadrants_height]

/-- C7: for every source raster set and tile size, `generate16` enumerates
bitmasks 0..15 with no normalization and yields exactly 16 descriptors on
a `4·tileSize × 4·tileSize` atlas, descriptor `i` at cell
`(i mod 4, i div 4)` (pixel `((i mod 4)·tileSize, (i div 4)·tileSize)`),
with the fixed ordered label list. -/
theorem c7_generate16_atlas_layout_and_labels (images : Imgs) (ts : Nat) :
    (generate16 images ts).tiles.length = 16 ∧
      (generate16 images ts).canvas.width = 4 * ts ∧
      (generate16 images ts).canvas.height = 4 * ts ∧
      (generate16 images ts).tiles.map (·.id) = List.range 16 ∧
      (generate16 images ts).tiles.map (·.bitmask) = List.range 16 ∧
      (generate16 images ts).tiles.map (·.x) = (List.range 16).map (fun i => i % 4 * ts) ∧
      (generate16 images ts).tiles.map (·.y) = (List.range 16).map (fun i => i / 4 * ts) ∧
      (generate16 images ts).tiles.map (·.label) =
        ["isolated", "cap-N", "cap-E", "corner-NE",
         "cap-S", "strip-V", "corner-SE", "T-E",
         "cap-W", "corner-NW", "strip-H", "T-N",
         "corner-SW", "T-W", "T-S", "cross"] := by
  refine ⟨rfl, ?_, ?_, rfl, rfl, rfl, rfl, rfl⟩
  · exact (foldl_drawTile16_width images ts (List.range 16) (createCanvas (4 * ts) (4 * ts)))
  · exact (foldl_drawTile16_height images ts (List.range 16) (createCanvas (4 * ts) (4 * ts)))

/-- C2: for every source raster set and tile size, `generate47` yields
exactly 47 descriptors on an `8·tileSize × 6·tileSize` atlas; descriptor
`i` carries the `i`-th entry of the ascending canonical table as its 8-bit
code (so descriptor codes are strictly increasing), sits at pixel
`((i mod 8)·tileSize, (i div 8)·tileSize)` (cell `(i mod 8, i div 8)`),
and is labelled `tile-47-<i>`. -/
theorem c2_generate47_atlas_layout_and_order (images : Imgs) (ts : Nat) :
    (generate47 images ts).tiles.length = 47 ∧
      (generate47 images ts).canvas.width = 8 * ts ∧
      (generate47 images ts).canvas.height = 6 * ts ∧
      (generate47 images ts).tiles.map (·.id) = List.range 47 ∧
      (generate47 images ts).tiles.map (·.bitmask8) = NORMALIZED_47 ∧
      ((generate47 images ts).tiles.map (·.bitmask8)).Pairwise (· < ·) ∧
      (generate47 images ts).tiles.map (·.x) = (List.range 47).map (fun i => i % 8 * ts) ∧
      (generate47 images ts).tiles.map (·.y) = (List.range 47).map (fun i => i / 8 * ts) ∧
      (generate47 images ts).tiles.map (·.label) =
        (List.range 47).map (fun i => "tile-47-" ++ toString i) := by
  refine ⟨rfl, ?_, ?_, rfl, rfl, ?_, rfl, rfl, rfl⟩
  · exact (foldl_drawTile47_width images ts NORMALIZED_47.enum _)
  · exact (foldl_drawTile47_height images ts NORMALIZED_47.enum _)
  · have hmap : (generate47 images ts).tiles.map (·.bitmask8) = NORMALIZED_47 := rfl
    rw [hmap]
    decide

/-- C8 counterexample: with the unrecognized scheme value "hex", `generate`
routes to the 16-builder but returns the tag "hex", not a tag identifying
the 16 scheme. -/
theorem c8_counterexample_tag_not_16 :
    (generate ⟨emptyImgs, 4, "hex"⟩).res.is47 = false ∧
      (generate ⟨emptyImgs, 4, "hex"⟩).algorithm = "hex" ∧
      (generate ⟨emptyImgs, 4, "hex"⟩).algorithm ≠ "16" :=
  ⟨rfl, rfl, by decide⟩

/-- C8 (amended): `generate` clamps the effective tile size to a minimum
of 8, routes to the 47-builder exactly when the scheme string is "47" and
to the 16-builder for every other value, and returns the result together
with the caller's original scheme string unchanged (for unrecognized
schemes the returned tag is that unrecognized value itself). -/
theorem c8_generate_dispatch (st : GenState) :
    (generate st).algorithm = st.algorithm ∧
      ((generate st).res.is47 = true ↔ st.algorithm = "47") ∧
      (st.algorithm = "47" →
        generate st = ⟨.r47 (generate47 st.images (max 8 st.tileSize)).canvas
          (generate47 st.images (max 8 st.tileSize)).tiles, st.algorithm⟩) ∧
      (st.algorithm ≠ "47" →
        generate st = ⟨.r16 (generate16 st.images (max 8 st.tileSize)).canvas
          (generate16 st.images (max 8 st.tileSize)).tiles, st.algorithm⟩) ∧
      8 ≤ max 8 st.tileSize := by
  by_cases h : st.algorithm = "47" <;>
    simp [generate, h, SchemeResult.is47]

/-- C8 witness: the dispatch theorem applied at the concrete states with
schemes "47" and "16" and requested tile size 4 (clamped to 8). -/
theorem c8_generate_dispatch_witness :
    generate ⟨emptyImgs, 4, "47"⟩ =
        ⟨.r47 (generate47 emptyImgs 8).canvas (generate47 emptyImgs 8).tiles, "47"⟩ ∧
      generate ⟨emptyImgs, 4, "16"⟩ =
        ⟨.r16 (generate16 emptyImgs 8).canvas (generate16 emptyImgs 8).tiles, "16"⟩ :=
  ⟨(c8_generate_dispatch ⟨emptyImgs, 4, "47"⟩).2.2.1 rfl,
   (c8_generate_dispatch ⟨emptyImgs, 4, "16"⟩).2.2.2.1 (by decide)⟩

theorem foldl_drawTile47_pix (images : Imgs) (ts : Nat) (l : List (Nat × Nat)) (c : Canvas)
    (x y : Nat)
    (H : ∀ p ∈ l, outsideTile (p.1 % 8 * ts) (p.1 / 8 * ts) ts x y) :
    (l.foldl (drawTile47 images ts) c).pix x y = c.pix x y := by
  induction l generalizing c with
  | nil => rfl
  | cons a l ih =>
      rw [List.foldl_cons, ih _ fun p hp => H p (List.mem_cons_of_mem a hp)]
      have ha := H a (List.mem_cons_self a l)
      unfold drawTile47
      exact composeQuadrants_pix_outside ha

/-- C9 counterexample: with a solid opaque red `main` raster and tile size
8, `generate47` places a tile descriptor (index 43) inside the claimed
5 trailing cells of the last row — at cell (3, 5), pixel (24, 40) — and
that cell's top-left pixel ends up fully opaque, so the 5 trailing cells
of the last row are not left blank. -/
theorem c9_counterexample_trailing_cells_used :
    (¬ ∀ t ∈ (generate47 ⟨some (solid ⟨255, 0, 0, 255⟩), none, none, none, none⟩ 8).tiles,
        ¬ (t.y = 5 * 8 ∧ 3 * 8 ≤ t.x)) ∧
      ((generate47 ⟨some (solid ⟨255, 0, 0, 255⟩), none, none, none, none⟩ 8).canvas.pix
        24 40).a = 255 := by
  constructor
  · intro hall
    exact hall ((generate47 ⟨some (solid ⟨255, 0, 0, 255⟩), none, none, none, none⟩ 8).tiles.get
      ⟨43, by decide⟩) (by decide) (by decide)
  · decide

/-- C9 (amended): the 47-scheme atlas has exactly one unused trailing cell,
cell (7, 5): no tile index maps to that cell, and for every source raster
set and tile size every pixel of that cell stays fully transparent. -/
theorem c9_last_cell_blank (images : Imgs) (ts : Nat) :
    (∀ x y, 7 * ts ≤ x → x < 8 * ts → 5 * ts ≤ y → y < 6 * ts →
      (generate47 images ts).canvas.pix x y = Pixel.clear) ∧
      (∀ i, i < (generate47 images ts).tiles.length → ¬ (i % 8 = 7 ∧ i / 8 = 5)) := by
  constructor
  · intro x y hx1 hx2 hy1 hy2
    have H : ∀ p ∈ NORMALIZED_47.enum, outsideTile (p.1 % 8 * ts) (p.1 / 8 * ts) ts x y := by
      intro p hp
      have hget : NORMALIZED_47[p.1]? = some p.2 := List.mem_enum_iff_getElem?.mp hp
      have hlt : p.1 < NORMALIZED_47.length := (List.getElem?_eq_some.mp hget).1
      have hlen : NORMALIZED_47.length = 47 := by decide
      rw [hlen] at hlt
      have hcase : p.1 % 8 ≤ 6 ∨ p.1 / 8 ≤ 4 := by omega
      unfold outsideTile
      rcases hcase with hc | hc
      · refine Or.inr (Or.inl ?_)
        calc p.1 % 8 * ts + ts = (p.1 % 8 + 1) * ts := by rw [Nat.succ_mul]
          _ ≤ 7 * ts := Nat.mul_le_mul_right ts (by omega)
          _ ≤ x := hx1
      · refine Or.inr (Or.inr (Or.inr ?_))
        calc p.1 / 8 * ts + ts = (p.1 / 8 + 1) * ts := by rw [Nat.succ_mul]
          _ ≤ 5 * ts := Nat.mul_le_mul_right ts (by omega)
          _ ≤ y := hy1
    show (NORMALIZED_47.enum.foldl (drawTile47 images ts)
      (createCanvas (8 * ts) ((NORMALIZED_47.length + 8 - 1) / 8 * ts))).pix x y = Pixel.clear
    rw [foldl_drawTile47_pix images ts _ _ x y H]
    rfl
  · intro i hi
    have hlen : (generate47 images ts).tiles.length = 47 := rfl
    rw [hlen] at hi
    omega

/-- C9 witness: the amended theorem applied with the empty source set and
tile size 8 at pixel (56, 40) — inside cell (7, 5) — and at tile index 0. -/
theorem c9_last_cell_blank_witness :
    (generate47 emptyImgs 8).canvas.pix 56 40 = Pixel.clear ∧ ¬ (0 % 8 = 7 ∧ 0 / 8 = 5) :=
  ⟨(c9_last_cell_blank emptyImgs 8).1 56 40 (by decide) (by decide) (by decide) (by decide),
   (c9_last_cell_blank emptyImgs 8).2 0 (by decide)⟩

/-- C6: whenever at least one cardinal flag is false, `drawQuadrant` equals
the layering "main as base, then the vertical edge raster when the vertical
flag is false, then the horizontal edge raster when the horizontal flag is
false" (`edgeLayering`); consequently, for the 16-scheme isolated tile
(code 0b0000) with opaque red `main`, opaque green `top`, opaque blue
`left` and no `bottom`/`right`, the top-left quadrant's final visible
color is blue. -/
theorem c6_edge_quadrant_draw_order :
    (∀ (ctx : Canvas) (qx qy qs qcol qrow : Nat) (hv hh : Bool)
        (m v hz : Option Raster) (ic : Bool), (hv && hh) = false →
        drawQuadrant ctx qx qy qs qcol qrow hv hh m v hz ic =
          edgeLayering ctx qx qy qs qcol qrow hv hh m v hz) ∧
      (composeQuadrants (createCanvas 2 2) 0 0 2 0
        ⟨some (solid ⟨255, 0, 0, 255⟩), some (solid ⟨0, 255, 0, 255⟩), none,
          some (solid ⟨0, 0, 255, 255⟩), none⟩ 0).pix 0 0 = ⟨0, 0, 255, 255⟩ := by
  constructor
  · intro ctx qx qy qs qcol qrow hv hh m v hz ic h
    cases m <;> cases v <;> cases hz <;>
      simp [drawQuadrant, edgeLayering, blitQuadrant, h]
  · decide

/-- C6 witness: the draw-order equation applied at the isolated top-left
quadrant (both flags false) with red main, green vertical, blue
horizontal. -/
theorem c6_edge_quadrant_draw_order_witness :
    drawQuadrant (createCanvas 2 2) 0 0 1 0 0 false false
        (some (solid ⟨255, 0, 0, 255⟩)) (some (solid ⟨0, 255, 0, 255⟩))
        (some (solid ⟨0, 0, 255, 255⟩)) false =
      edgeLayering (createCanvas 2 2) 0 0 1 0 0 false false
        (some (solid ⟨255, 0, 0, 255⟩)) (some (solid ⟨0, 255, 0, 255⟩))
        (some (solid ⟨0, 0, 255, 255⟩)) :=
  c6_edge_quadrant_draw_order.1 (createCanvas 2 2) 0 0 1 0 0 false false
    (some (solid ⟨255, 0, 0, 255⟩)) (some (solid ⟨0, 255, 0, 255⟩))
    (some (solid ⟨0, 0, 255, 255⟩)) false rfl

/-- C5: in the concave-corner blend, at each pixel where both edge-raster
quadrants have non-zero alpha the output channels are the rounded
alpha-weighted averages and the output alpha is the maximum of the two;
pixels with at most one contributing raster stay transparent in the blend
layer, and compositing a transparent pixel over existing content leaves
that content unchanged; in particular, in the full 47-scheme pipeline with
code N|W (NW clear), opaque red `top` and opaque blue `left` blend to
(128, 0, 128) at alpha 255. -/
theorem c5_concave_corner_blend (imgVert imgHoriz : Raster) (qcol qrow qs x y : Nat) :
    (0 < (imgVert (qcol * qs + x) (qrow * qs + y)).a →
      0 < (imgHoriz (qcol * qs + x) (qrow * qs + y)).a →
      blendLayer imgVert imgHoriz qcol qrow qs x y =
        ⟨jsRound ((imgVert (qcol * qs + x) (qrow * qs + y)).r
              * (imgVert (qcol * qs + x) (qrow * qs + y)).a
            + (imgHoriz (qcol * qs + x) (qrow * qs + y)).r
              * (imgHoriz (qcol * qs + x) (qrow * qs + y)).a)
            ((imgVert (qcol * qs + x) (qrow * qs + y)).a
              + (imgHoriz (qcol * qs + x) (qrow * qs + y)).a),
          jsRound ((imgVert (qcol * qs + x) (qrow * qs + y)).g
              * (imgVert (qcol * qs + x) (qrow * qs + y)).a
            + (imgHoriz (qcol * qs + x) (qrow * qs + y)).g
              * (imgHoriz (qcol * qs + x) (qrow * qs + y)).a)
            ((imgVert (qcol * qs + x) (qrow * qs + y)).a
              + (imgHoriz (qcol * qs + x) (qrow * qs + y)).a),
          jsRound ((imgVert (qcol * qs + x) (qrow * qs + y)).b
              * (imgVert (qcol * qs + x) (qrow * qs + y)).a
            + (imgHoriz (qcol * qs + x) (qrow * qs + y)).b
              * (imgHoriz (qcol * qs + x) (qrow * qs + y)).a)
            ((imgVert (qcol * qs + x) (qrow * qs + y)).a
              + (imgHoriz (qcol * qs + x) (qrow * qs + y)).a),
          max (imgVert (qcol * qs + x) (qrow * qs + y)).a
            (imgHoriz (qcol * qs + x) (qrow * qs + y)).a⟩) ∧
      (¬ (0 < (imgVert (qcol * qs + x) (qrow * qs + y)).a ∧
          0 < (imgHoriz (qcol * qs + x) (qrow * qs + y)).a) →
        blendLayer imgVert imgHoriz qcol qrow qs x y = Pixel.clear) ∧
      (∀ d : Pixel, 0 < d.a → Pixel.srcOver Pixel.clear d = d) ∧
      (composeQuadrants (createCanvas 2 2) 0 0 2 (cardinals8to4 0x41)
        ⟨none, some (solid ⟨255, 0, 0, 255⟩), none, some (solid ⟨0, 0, 255, 255⟩), none⟩
        0x41).pix 0 0 = ⟨128, 0, 128, 255⟩ := by
  refine ⟨?_, ?_, ?_, by decide⟩
  · intro h1 h2
    simp [blendLayer, h1, h2]
  · intro h
    simp [blendLayer, h]
  · intro d hd
    have h255 : 0 < d.a * 255 := by omega
    unfold Pixel.srcOver Pixel.clear
    simp only [Nat.zero_mul, Nat.zero_add, Nat.sub_zero, Nat.mul_zero]
    rw [if_neg (by omega)]
    have hr : d.r * d.a * 255 / (d.a * 255) = d.r := by
      rw [Nat.mul_assoc, Nat.mul_div_cancel _ h255]
    have hg : d.g * d.a * 255 / (d.a * 255) = d.g := by
      rw [Nat.mul_assoc, Nat.mul_div_cancel _ h255]
    have hb : d.b * d.a * 255 / (d.a * 255) = d.b := by
      rw [Nat.mul_assoc, Nat.mul_div_cancel _ h255]
    have ha : d.a * 255 / 255 = d.a := Nat.mul_div_cancel _ (by omega)
    simp [hr, hg, hb, ha]

/-- C5 witness: the blend equations applied at concrete pixels — opaque
red over opaque blue yields the 50/50 blend (128, 0, 128, 255); a
zero-alpha horizontal contribution leaves the blend layer transparent; and
a transparent blend pixel composited over existing content preserves it. -/
theorem c5_concave_corner_blend_witness :
    blendLayer (solid ⟨255, 0, 0, 255⟩) (solid ⟨0, 0, 255, 255⟩) 0 0 1 0 0 =
        ⟨128, 0, 128, 255⟩ ∧
      blendLayer (solid ⟨255, 0, 0, 255⟩) (solid ⟨0, 0, 255, 0⟩) 0 0 1 0 0 = Pixel.clear ∧
      Pixel.srcOver Pixel.clear ⟨7, 8, 9, 200⟩ = ⟨7, 8, 9, 200⟩ := by
  refine ⟨?_, ?_, ?_⟩
  · have h := (c5_concave_corner_blend (solid ⟨255, 0, 0, 255⟩) (solid ⟨0, 0, 255, 255⟩)
      0 0 1 0 0).1 (by decide) (by decide)
    rw [h]
    decide
  · exact (c5_concave_corner_blend (solid ⟨255, 0, 0, 255⟩) (solid ⟨0, 0, 255, 0⟩)
      0 0 1 0 0).2.1 (by decide)
  · exact (c5_concave_corner_blend (solid ⟨255, 0, 0, 255⟩) (solid ⟨0, 0, 255, 255⟩)
      0 0 1 0 0).2.2.1 ⟨7, 8, 9, 200⟩ (by decide)
